import Mathlib

/-!
# up-restorage: a document-store gateway

A shallow embedding of `app.go`, `engine_elasticsearch.go` and `engine_mgo.go`.

* Go values of type `interface{}` found in a `Document` are the constructors of `Value`.
* A Go function that can `panic` returns an `Outcome`.
* A Go `error` result is an `Option`: `none` is `nil`.
* The backends (the HTTP client talking to the search index, the mgo session talking to the
  database) are external; they are parameters (`ElasticEnv`, `MgoEnv`) acting on an explicit
  backend state, and every engine operation also reports the list of backend calls it issued.
-/

namespace Restorage

/-! ## Data model -/

mutual
/-- A Go value stored under a key of a `Document` (`interface{}`): what `encoding/json` decodes
(null, bool, number, string, array, object) and `bson.Binary`. The payload of a number is kept as
an integer; no operation of the gateway inspects it. -/
inductive Value where
  | null
  | bool (b : Bool)
  | num (n : Int)
  | str (s : String)
  | binary (kind : Nat) (data : List Nat)
  | arr (xs : Values)
  | obj (kvs : Fields)
  deriving DecidableEq
/-- The elements of an array value. -/
inductive Values where
  | nil
  | cons (v : Value) (vs : Values)
  deriving DecidableEq
/-- The fields of a nested object value. -/
inductive Fields where
  | nil
  | cons (k : String) (v : Value) (fs : Fields)
  deriving DecidableEq
end

/-- The Go type `Document` (`map[string]interface{}`) as an association list; the first entry of
a key is the one the map holds. The nil map and `Document{}` are both `[]`. -/
abbrev Document := List (String × Value)

/-- The map read `doc[key]`: `none` when the key is absent. -/
def Document.get (doc : Document) (key : String) : Option Value :=
  doc.lookup key

/-- The builtin `delete(doc, key)`. -/
def Document.delete (doc : Document) (key : String) : Document :=
  doc.filter (fun kv => kv.1 != key)

/-- The map write `doc[key] = v`. -/
def Document.set (doc : Document) (key : String) (v : Value) : Document :=
  (key, v) :: Document.delete doc key

/-- A Go `error` value: the sentinel errors the code compares against with `==`
(`mgo.ErrNotFound`, `ERR_INVALID_QUERY`, `ERR_NOT_IMPLEMENTED`), or any other error, by its
message (`errors.New("missing id")` is `other "missing id"`). -/
inductive Error where
  | errNotFound
  | errInvalidQuery
  | errNotImplemented
  | other (msg : String)
  deriving DecidableEq, Repr

/-- The result of a Go call that may panic. -/
inductive Outcome (α : Type) where
  | returned (a : α)
  | panicked (msg : String)
  deriving DecidableEq, Repr

/-- The type `Collection` used by the database engine (fields `name`, `idPropertyName`). -/
structure Collection where
  name : String
  idPropertyName : String
  deriving DecidableEq, Repr

/-! ## app.go: identifier extraction -/

/-- The function `getId` of app.go: the string under "uuid", else the string under "id", else
`panic("no id")`. A type assertion `.(string)` fails on an absent key and on a non-string. -/
def getId (doc : Document) : Outcome String :=
  match Document.get doc "uuid" with
  | some (Value.str id) => Outcome.returned id
  | _ =>
    match Document.get doc "id" with
    | some (Value.str id) => Outcome.returned id
    | _ => Outcome.panicked "no id"

/-- Whether `doc[key]` holds a string (the `ok` of `doc[key].(string)`). -/
def holdsString (doc : Document) (key : String) : Prop :=
  ∃ s, Document.get doc key = some (Value.str s)

/-- The interface `Engine` as app.go uses it in the write paths: `Write(collection, id, doc)`
acting on a backend state `σ`; it returns an `error` or panics. -/
structure Engine (σ : Type) where
  Write : String → String → Document → σ → σ × Outcome (Option Error)

/-- One recorded call of `Engine.Write`. -/
structure WriteCall where
  collection : String
  id : String
  doc : Document
  deriving DecidableEq

/-- The body of the worker loop of `putAllHandler` for one received document:
`err := ah.index.Write(collection, getId(doc), doc)`. The argument `getId(doc)` is evaluated
before the call, so a panic of `getId` leaves the engine untouched. Returns the new backend
state, the `Write` calls made, and the `err` (or the panic). -/
def workerIter {σ : Type} (index : Engine σ) (collection : String) (doc : Document) (s : σ) :
    σ × List WriteCall × Outcome (Option Error) :=
  match getId doc with
  | Outcome.panicked msg => (s, [], Outcome.panicked msg)
  | Outcome.returned id =>
    let r := index.Write collection id doc s
    (r.1, [⟨collection, id, doc⟩], r.2)

/-! ## app.go: the handlers that read a body -/

/-- What a handler leaves the client with: a response with a status code and text, no response
because the handler never returns, or no response because a goroutine panicked. -/
inductive HandlerResult where
  | status (code : Nat) (text : String)
  | hang
  | panicked (msg : String)
  deriving DecidableEq, Repr

/-- The message `err.Error()` of an error (the texts of the sentinel errors are declared
outside these files; only their identity matters). -/
def Error.message : Error → String
  | Error.errNotFound => "not found"
  | Error.errInvalidQuery => "invalid query"
  | Error.errNotImplemented => "not implemented"
  | Error.other msg => msg

/-- The handler `idWriteHandler` (PUT /{collection}/{id}). `body` is the result of the single
`dec.Decode(&doc)`. A handler that returns without writing a header answers 200. -/
def idWriteHandler {σ : Type} (index : Engine σ) (collection id : String)
    (body : Except Error Document) (s : σ) : σ × List WriteCall × HandlerResult :=
  match body with
  | Except.error err => (s, [], HandlerResult.status 400 (Error.message err))
  | Except.ok doc =>
    match getId doc with
    | Outcome.panicked msg => (s, [], HandlerResult.panicked msg)
    | Outcome.returned docId =>
      if docId ≠ id then (s, [], HandlerResult.status 400 "id does not match")
      else
        let r := index.Write collection id doc s
        match r.2 with
        | Outcome.panicked msg => (r.1, [⟨collection, id, doc⟩], HandlerResult.panicked msg)
        | Outcome.returned (some err) =>
          (r.1, [⟨collection, id, doc⟩],
            HandlerResult.status 500 ("write failed:\n" ++ Error.message err ++ "\n"))
        | Outcome.returned none => (r.1, [⟨collection, id, doc⟩], HandlerResult.status 200 "")

/-- The capacity of the error channel of `putAllHandler`: `make(chan error, 2)`. -/
def errChCapacity : Nat := 2

/-- The number of workers `putAllHandler` starts: `for x := 0; x < 8; x++`. -/
def numWorkers : Nat := 8

/-- The tasks that send on the error channel: the decoder and each worker. -/
def failureSources : Nat := 1 + numWorkers

/-- The state of the bulk-ingestion pipeline: the backend, the `Write` calls made so far, the
errors buffered in `errCh`, the number of workers still ranging over `docCh`, the number of
tasks blocked for good on a channel send (those never reach `wg.Done`), and the panic that
ended the process, if any. -/
structure Pipeline (σ : Type) where
  backend : σ
  calls : List WriteCall
  errCh : List Error
  live : Nat
  blocked : Nat
  crashed : Option String

/-- The send `errCh <- err` while nobody receives (the handler reads `errCh` only after
`wg.Wait()`): it is buffered when there is room, and blocks for good otherwise. -/
def Pipeline.sendErr {σ : Type} (p : Pipeline σ) (err : Error) : Pipeline σ :=
  if p.errCh.length < errChCapacity then { p with errCh := p.errCh ++ [err] }
  else { p with blocked := p.blocked + 1 }

/-- The pipeline when `putAllHandler` has started its goroutines. -/
def Pipeline.start {σ : Type} (s : σ) : Pipeline σ :=
  ⟨s, [], [], numWorkers, 0, none⟩

/-- The decoder goroutine and the workers of `putAllHandler`, run over the stream of results of
`dec.Decode` (the end of the list is `io.EOF`), in the executions where the worker that received
a document finishes with it before the decoder hands out the next one. The workers are
interchangeable, so only their number is tracked. A decode error is sent on `errCh` and ends the
decoder. A document is handed to a live worker (with none left the decoder blocks on `docCh`);
a worker whose `Write` fails sends the error and returns; a panic in a worker ends the
process. -/
def putAllLoop {σ : Type} (index : Engine σ) (collection : String) :
    List (Except Error Document) → Pipeline σ → Pipeline σ
  | [], p => p
  | Except.error err :: _, p => p.sendErr err
  | Except.ok doc :: rest, p =>
    if p.live = 0 then { p with blocked := p.blocked + 1 }
    else
      match workerIter index collection doc p.backend with
      | (s, calls, Outcome.panicked msg) =>
        { p with backend := s, calls := p.calls ++ calls, crashed := some msg }
      | (s, calls, Outcome.returned none) =>
        putAllLoop index collection rest { p with backend := s, calls := p.calls ++ calls }
      | (s, calls, Outcome.returned (some err)) =>
        putAllLoop index collection rest
          (Pipeline.sendErr
            { p with backend := s, calls := p.calls ++ calls, live := p.live - 1 } err)

/-- The answer of `putAllHandler` once its goroutines have run: none when the process
panicked, none when a task is blocked (`wg.Wait()` never returns), 500 when `errCh` holds an
error, and a normal return (200) otherwise. -/
def Pipeline.answer {σ : Type} (p : Pipeline σ) : HandlerResult :=
  match p.crashed with
  | some msg => HandlerResult.panicked msg
  | none =>
    if p.blocked ≠ 0 then HandlerResult.hang
    else
      match p.errCh with
      | err :: _ => HandlerResult.status 500 (Error.message err)
      | [] => HandlerResult.status 200 ""

/-- The handler `putAllHandler` (PUT /{collection}/) on the stream of decode results of the
body. -/
def putAllHandler {σ : Type} (index : Engine σ) (collection : String)
    (body : List (Except Error Document)) (s : σ) : HandlerResult :=
  (putAllLoop index collection body (Pipeline.start s)).answer

/-- The `Write` calls the pipeline of `putAllHandler` makes on a body. -/
def putAllCalls {σ : Type} (index : Engine σ) (collection : String)
    (body : List (Except Error Document)) (s : σ) : List WriteCall :=
  (putAllLoop index collection body (Pipeline.start s)).calls

/-! ## engine_elasticsearch.go -/

/-- The body of an HTTP request: none, the JSON encoding of a document (`json.NewEncoder` on
the pipe of `Write`; the encoder does not fail on a `Document`), or a query text. -/
inductive HttpBody where
  | empty
  | json (doc : Document)
  | text (q : String)
  deriving DecidableEq

/-- An HTTP request sent to the search index. -/
structure HttpRequest where
  method : String
  url : String
  body : HttpBody
  deriving DecidableEq

/-- An HTTP response of the search index. -/
structure HttpResponse where
  status : Nat
  body : String
  deriving DecidableEq

/-- The external collaborators of `elasticEngine`, on a backend state `σ`:
`newRequestOk method url` says whether `http.NewRequest` succeeds, `send` is the round trip of
`client.Do`, `client.Get` and `client.Post` (a transport error or a response), and the two
decoders are `json.Decoder.Decode` into `esGetResult` (yielding `_source`) and into
`esRecentResult` (yielding the ids of `hits.hits`). -/
structure ElasticEnv (σ : Type) where
  newRequestOk : String → String → Bool
  send : HttpRequest → σ → σ × Except Error HttpResponse
  decodeGetResult : String → Except Error Document
  decodeRecentResult : String → Except Error (List String)

/-- The URL `fmt.Sprintf("http://localhost:9200/store/%s/%s", collection, id)`. -/
def docURL (collection id : String) : String :=
  "http://localhost:9200/store/" ++ collection ++ "/" ++ id

/-- The method `elasticEngine.Write`: new backend state, requests sent, and the returned error
or the panic. The response status is not looked at. -/
def elasticEngine.Write {σ : Type} (env : ElasticEnv σ) (collection id : String)
    (cont : Document) (s : σ) : σ × List HttpRequest × Outcome (Option Error) :=
  if id = "" then (s, [], Outcome.returned (some (Error.other "missing id")))
  else
    if env.newRequestOk "PUT" (docURL collection id) = false then
      (s, [], Outcome.panicked "http.NewRequest")
    else
      let req : HttpRequest := ⟨"PUT", docURL collection id, HttpBody.json cont⟩
      match env.send req s with
      | (s1, Except.error err) => (s1, [req], Outcome.panicked (Error.message err))
      | (s1, Except.ok _) => (s1, [req], Outcome.returned none)

/-- The method `elasticEngine.Load`: new backend state, requests sent, and `(found, doc, err)`
or the panic. -/
def elasticEngine.Load {σ : Type} (env : ElasticEnv σ) (collection id : String) (s : σ) :
    σ × List HttpRequest × Outcome (Bool × Document × Option Error) :=
  let req : HttpRequest := ⟨"GET", docURL collection id, HttpBody.empty⟩
  match env.send req s with
  | (s1, Except.error err) => (s1, [req], Outcome.panicked (Error.message err))
  | (s1, Except.ok res) =>
    if res.status = 200 then
      match env.decodeGetResult res.body with
      | Except.error err => (s1, [req], Outcome.panicked (Error.message err))
      | Except.ok doc => (s1, [req], Outcome.returned (true, doc, none))
    else if res.status = 404 then (s1, [req], Outcome.returned (false, [], none))
    else (s1, [req], Outcome.panicked "unexpected status")

/-- The search index as the `Engine` of the handlers: the requests sent are appended to a log
kept next to the backend state. -/
def elasticIndex {σ : Type} (env : ElasticEnv σ) : Engine (σ × List HttpRequest) where
  Write := fun collection id doc s =>
    let r := elasticEngine.Write env collection id doc s.1
    ((r.1, s.2 ++ r.2.1), r.2.2)

/-- The constant `searchString`, byte for byte (the raw string literal holds tabs and line
breaks). -/
def searchString : String :=
  "\n\t\x7b\n\t\t\"query\": \x7b\n\t\t\t\"query_string\": \x7b\n\t\t\t\t\"query\":\"%v\"\x7d\n\t\t\t\x7d,\n\t\t\t\"fields\":[],\n\t\t\t\"size\": %d,\n\t\t\t\"from\": 0\n\t\t\x7d\n\t\x7d"

/-- An argument of `fmt.Sprintf`. -/
inductive FmtArg where
  | str (s : String)
  | int (n : Int)

/-- The verb `%d` on an `int`: decimal digits, with a leading minus sign when negative. -/
def formatInt : Int → List Char
  | Int.ofNat m => Nat.toDigits 10 m
  | Int.negSucc m => '-' :: Nat.toDigits 10 (m + 1)

/-- The text an argument prints as under `%v` (a string as itself) or `%d` (an integer in
decimal). -/
def FmtArg.chars : FmtArg → List Char
  | FmtArg.str s => s.toList
  | FmtArg.int n => formatInt n

/-- The function `fmt.Sprintf` on the characters of a format, for the two verbs the call sites
use, `%v` and `%d`, each taking the next argument; every other character is copied. (A verb
with no argument left is copied as well; no call site has one.) -/
def sprintfChars : List Char → List FmtArg → List Char
  | [], _ => []
  | [c], _ => [c]
  | c :: d :: rest, args =>
    if c = '%' ∧ (d = 'v' ∨ d = 'd') then
      match args with
      | a :: more => a.chars ++ sprintfChars rest more
      | [] => c :: d :: sprintfChars rest []
    else c :: sprintfChars (d :: rest) args

/-- The call `strings.Join(terms, " ")`. -/
def joinTerms (terms : List String) : String :=
  " ".intercalate terms

/-- The request body `q` built by `elasticEngine.Search`:
`fmt.Sprintf(searchString, strings.Join(terms, " "), limit)`. -/
def searchBody (terms : List String) (limit : Int) : List Char :=
  sprintfChars searchString.toList [FmtArg.str (joinTerms terms), FmtArg.int limit]

/-- Where a scan of JSON text stands: between tokens, inside a string literal, or right after
a backslash inside a string literal. -/
inductive ScanMode where
  | code
  | inString
  | escaped
  deriving DecidableEq

/-- Scan JSON text that started an object, `depth` braces being open: the text left after the
brace that closes the outermost one, or `none` when the text ends first. Braces inside string
literals do not count. -/
def scanObject : Nat → ScanMode → List Char → Option (List Char)
  | _, _, [] => none
  | depth, ScanMode.escaped, _ :: rest => scanObject depth ScanMode.inString rest
  | depth, ScanMode.inString, c :: rest =>
    if c = '\\' then scanObject depth ScanMode.escaped rest
    else if c = '"' then scanObject depth ScanMode.code rest
    else scanObject depth ScanMode.inString rest
  | depth, ScanMode.code, c :: rest =>
    if c = '"' then scanObject depth ScanMode.inString rest
    else if c = '\x7b' then scanObject (depth + 1) ScanMode.code rest
    else if c = '\x7d' then
      (if depth ≤ 1 then some rest else scanObject (depth - 1) ScanMode.code rest)
    else scanObject depth ScanMode.code rest

/-- JSON whitespace: space, tab, line feed, carriage return. -/
def isJsonSpace (c : Char) : Bool :=
  c = ' ' || c = '\t' || c = '\n' || c = '\r'

/-- The text after the first JSON object of a text: leading whitespace is skipped, the object
must open with a brace, and what follows its closing brace is returned. -/
def afterObject (text : List Char) : Option (List Char) :=
  match text.dropWhile isJsonSpace with
  | c :: rest => if c = '\x7b' then scanObject 1 ScanMode.code rest else none
  | [] => none

/-- A text is one JSON object as far as braces go: after leading whitespace an object opens, its
braces balance, and nothing but whitespace follows its closing brace. -/
def isOneObject (text : List Char) : Bool :=
  match afterObject text with
  | some rest => rest.all isJsonSpace
  | none => false

/-- The URL `fmt.Sprintf("http://localhost:9200/store/%s/_search", collection)`. -/
def searchURL (collection : String) : String :=
  "http://localhost:9200/store/" ++ collection ++ "/_search"

/-- Which case of a `select` between the offer `cont <- c` and the stop signal is taken. -/
inductive SelectCase where
  | send
  | stop
  deriving DecidableEq

/-- Where the producer goroutine of `elasticEngine.query` stands: about to decode the search
response, at the head of the `for _, h := range result.Hits.Hits` loop with the hits left, at the
`select` with the loaded document, about to panic, or returned. -/
inductive QueryPc where
  | decoding (body : String)
  | looping (hits : List String)
  | selecting (c : Document) (hits : List String)
  | failing (msg : String)
  | finished
  deriving DecidableEq

/-- The state of the producer goroutine of `elasticEngine.query`: its program point, the
backend, the requests it has sent, and the number of `select`s it has resolved. -/
structure QueryProducer (σ : Type) where
  pc : QueryPc
  backend : σ
  sent : List HttpRequest
  selects : Nat

/-- A step of a streaming producer as seen from outside: the results obtained (the search
response decoded, the cursor opened), a hydration call (`Load` of an id, or the cursor `Next`
yielding a document), a document handed to the consumer, the stop case of the `select` taken,
the goroutine returning (its deferred `close(cont)` closes the output channel), or a panic. -/
inductive ProducerEvent where
  | started
  | load (id : String)
  | next (doc : Document)
  | offer (doc : Document)
  | stopBranch
  | exit
  | panic (msg : String)
  deriving DecidableEq

/-- The method `elasticEngine.query` up to the start of its goroutine: the POST of the query,
then `ERR_INVALID_QUERY` on status 400, a panic on any status other than 200, and otherwise the
producer at its first instruction. -/
def elasticEngine.query {σ : Type} (env : ElasticEnv σ) (collection q : String) (s : σ) :
    σ × List HttpRequest × Outcome (Except Error (QueryProducer σ)) :=
  let req : HttpRequest := ⟨"POST", searchURL collection, HttpBody.text q⟩
  match env.send req s with
  | (s1, Except.error err) => (s1, [req], Outcome.panicked (Error.message err))
  | (s1, Except.ok res) =>
    if res.status = 200 then
      (s1, [req], Outcome.returned (Except.ok ⟨QueryPc.decoding res.body, s1, [], 0⟩))
    else if res.status = 400 then
      (s1, [req], Outcome.returned (Except.error Error.errInvalidQuery))
    else (s1, [req], Outcome.panicked "unexpected status")

/-- The method `elasticEngine.Search`. -/
def elasticEngine.Search {σ : Type} (env : ElasticEnv σ) (collection : String)
    (terms : List String) (limit : Int) (s : σ) :
    σ × List HttpRequest × Outcome (Except Error (QueryProducer σ)) :=
  elasticEngine.query env collection (String.mk (searchBody terms limit)) s

/-- One step of the goroutine of `elasticEngine.query`; `choice k` is the case taken by the
`select` number `k`. In the loop body a hit is loaded (a panic when `Load` panics, returns an
error or does not find the document), then the `select` runs; its stop case is `break`, which in
Go leaves the `select` statement, so the `for` loop goes on with the next hit. -/
def elasticEngine.queryStep {σ : Type} (env : ElasticEnv σ) (collection : String)
    (choice : Nat → SelectCase) (p : QueryProducer σ) :
    Option (ProducerEvent × QueryProducer σ) :=
  match p.pc with
  | QueryPc.finished => none
  | QueryPc.failing msg => some (ProducerEvent.panic msg, { p with pc := QueryPc.finished })
  | QueryPc.decoding body =>
    match env.decodeRecentResult body with
    | Except.error err =>
      some (ProducerEvent.panic (Error.message err), { p with pc := QueryPc.finished })
    | Except.ok hits => some (ProducerEvent.started, { p with pc := QueryPc.looping hits })
  | QueryPc.looping [] => some (ProducerEvent.exit, { p with pc := QueryPc.finished })
  | QueryPc.looping (id :: hits) =>
    match elasticEngine.Load env collection id p.backend with
    | (s1, reqs, Outcome.panicked msg) =>
      some (ProducerEvent.load id,
        { p with pc := QueryPc.failing msg, backend := s1, sent := p.sent ++ reqs })
    | (s1, reqs, Outcome.returned (_, _, some err)) =>
      some (ProducerEvent.load id,
        { p with pc := QueryPc.failing (Error.message err), backend := s1,
                 sent := p.sent ++ reqs })
    | (s1, reqs, Outcome.returned (false, _, none)) =>
      some (ProducerEvent.load id,
        { p with pc := QueryPc.failing "fail", backend := s1, sent := p.sent ++ reqs })
    | (s1, reqs, Outcome.returned (true, c, none)) =>
      some (ProducerEvent.load id,
        { p with pc := QueryPc.selecting c hits, backend := s1, sent := p.sent ++ reqs })
  | QueryPc.selecting c hits =>
    match choice p.selects with
    | SelectCase.send =>
      some (ProducerEvent.offer c, { p with pc := QueryPc.looping hits, selects := p.selects + 1 })
    | SelectCase.stop =>
      some (ProducerEvent.stopBranch,
        { p with pc := QueryPc.looping hits, selects := p.selects + 1 })

/-- The events of the first `fuel` steps of the goroutine of `elasticEngine.query`. -/
def elasticEngine.queryTrace {σ : Type} (env : ElasticEnv σ) (collection : String)
    (choice : Nat → SelectCase) : Nat → QueryProducer σ → List ProducerEvent
  | 0, _ => []
  | fuel + 1, p =>
    match elasticEngine.queryStep env collection choice p with
    | none => []
    | some (ev, p1) => ev :: elasticEngine.queryTrace env collection choice fuel p1

/-! ## engine_mgo.go -/

/-- A field-equality selector of a database query: `bson.D{{field, value}}` in `Upsert`,
`bson.M{field: value}` in `Find`. -/
abbrev Selector := String × Value

/-- The cursor `coll.Find(nil).Iter()`: the documents `iter.Next` will yield, and the error
`iter.Close()` reports once `Next` has returned false. -/
structure Cursor where
  docs : List Document
  closeErr : Option Error

/-- The external collaborators of `mongoEngine`, on a backend state `σ`; the first two arguments
are the database and the collection name. `upsert` is `Collection.Upsert` (its change info is
dropped by the caller), `findOne` is `Find(selector).One`, `findAll` is `Find(nil).Iter()`, and
`uuidParse` is `uuid.Parse` (the bytes of the identifier, none when it does not parse). -/
structure MgoEnv (σ : Type) where
  upsert : String → String → Selector → Document → σ → σ × Option Error
  findOne : String → String → Selector → σ → σ × Except Error Document
  findAll : String → String → σ → σ × Cursor
  uuidParse : String → List Nat

/-- The configuration fields of `mongoEngine` (the session is the `MgoEnv`). -/
structure mongoEngine where
  dbName : String
  isBinaryId : Bool

/-- A call made to the database. -/
inductive MgoCall where
  | upsert (db coll : String) (sel : Selector) (doc : Document)
  | findOne (db coll : String) (sel : Selector)
  | findAll (db coll : String)
  deriving DecidableEq

/-- The function `cleanup`: `delete(doc, "_id")`. -/
def cleanup (doc : Document) : Document :=
  Document.delete doc "_id"

/-- The method `mongoEngine.Write`: new backend state, database calls made, returned error.
The selector holds the identifier as a string in both identifier modes, and the error of
`Upsert` is logged, not returned. -/
def mongoEngine.Write {σ : Type} (env : MgoEnv σ) (eng : mongoEngine) (collection : Collection)
    (id : String) (cont : Document) (s : σ) : σ × List MgoCall × Option Error :=
  if id = "" then (s, [], some (Error.other "missing id"))
  else
    let sel : Selector := (collection.idPropertyName, Value.str id)
    let r := env.upsert eng.dbName collection.name sel cont s
    (r.1, [MgoCall.upsert eng.dbName collection.name sel cont], none)

/-- The selector `mongoEngine.Read` queries with: the identifier as a `bson.Binary` of kind
`0x04` holding `uuid.Parse(id)` when `isBinaryId`, as a string otherwise. -/
def mongoEngine.readSelector {σ : Type} (env : MgoEnv σ) (eng : mongoEngine)
    (collection : Collection) (id : String) : Selector :=
  if eng.isBinaryId then (collection.idPropertyName, Value.binary 4 (env.uuidParse id))
  else (collection.idPropertyName, Value.str id)

/-- The method `mongoEngine.Read`: new backend state, database calls made, and
`(found, doc, err)`. -/
def mongoEngine.Read {σ : Type} (env : MgoEnv σ) (eng : mongoEngine) (collection : Collection)
    (id : String) (s : σ) : σ × List MgoCall × (Bool × Document × Option Error) :=
  let sel := mongoEngine.readSelector env eng collection id
  let call := MgoCall.findOne eng.dbName collection.name sel
  match env.findOne eng.dbName collection.name sel s with
  | (s1, Except.error err) =>
    if err = Error.errNotFound then (s1, [call], (false, [], none))
    else (s1, [call], (false, [], some err))
  | (s1, Except.ok content) =>
    let cleaned := cleanup content
    if eng.isBinaryId then
      (s1, [call], (true, Document.set cleaned collection.idPropertyName (Value.str id), none))
    else (s1, [call], (true, cleaned, none))

/-- Where the producer goroutine of `mongoEngine.All` stands: about to open the cursor, at the
head of the `for iter.Next(result)` loop with the cursor, at the `select` with the cleaned
document, about to panic, or returned. -/
inductive AllPc where
  | opening
  | looping (cur : Cursor)
  | selecting (doc : Document) (cur : Cursor)
  | failing (msg : String)
  | finished

/-- The state of the producer goroutine of `mongoEngine.All`. -/
structure AllProducer (σ : Type) where
  pc : AllPc
  backend : σ
  selects : Nat

/-- The method `mongoEngine.All`: it returns the channel at once; the goroutine starts at its
first instruction. -/
def mongoEngine.All {σ : Type} (s : σ) : AllProducer σ :=
  ⟨AllPc.opening, s, 0⟩

/-- One step of the goroutine of `mongoEngine.All`; `choice k` is the case taken by the `select`
number `k`. The stop case is `break`, which leaves the `select` statement only, so the loop goes
on with the next `iter.Next`. After the loop `iter.Close()` is checked. -/
def mongoEngine.allStep {σ : Type} (env : MgoEnv σ) (eng : mongoEngine)
    (collection : Collection) (choice : Nat → SelectCase) (p : AllProducer σ) :
    Option (ProducerEvent × AllProducer σ) :=
  match p.pc with
  | AllPc.finished => none
  | AllPc.failing msg => some (ProducerEvent.panic msg, { p with pc := AllPc.finished })
  | AllPc.opening =>
    let r := env.findAll eng.dbName collection.name p.backend
    some (ProducerEvent.started, { p with pc := AllPc.looping r.2, backend := r.1 })
  | AllPc.looping ⟨[], none⟩ => some (ProducerEvent.exit, { p with pc := AllPc.finished })
  | AllPc.looping ⟨[], some err⟩ =>
    some (ProducerEvent.panic (Error.message err), { p with pc := AllPc.finished })
  | AllPc.looping ⟨doc :: more, closeErr⟩ =>
    some (ProducerEvent.next doc,
      { p with pc := AllPc.selecting (cleanup doc) ⟨more, closeErr⟩ })
  | AllPc.selecting doc cur =>
    match choice p.selects with
    | SelectCase.send =>
      some (ProducerEvent.offer doc, { p with pc := AllPc.looping cur, selects := p.selects + 1 })
    | SelectCase.stop =>
      some (ProducerEvent.stopBranch,
        { p with pc := AllPc.looping cur, selects := p.selects + 1 })

/-- The events of the first `fuel` steps of the goroutine of `mongoEngine.All`. -/
def mongoEngine.allTrace {σ : Type} (env : MgoEnv σ) (eng : mongoEngine)
    (collection : Collection) (choice : Nat → SelectCase) : Nat → AllProducer σ →
    List ProducerEvent
  | 0, _ => []
  | fuel + 1, p =>
    match mongoEngine.allStep env eng collection choice p with
    | none => []
    | some (ev, p1) => ev :: mongoEngine.allTrace env eng collection choice fuel p1

/-! ### The database as a store of documents matched by field equality -/

/-- The database: the documents of each collection of each database, in storage order, and the
counter the next `_id` is drawn from. -/
structure MgoStore where
  colls : String → String → List Document
  nextId : Nat

/-- Whether a stored document satisfies a selector: its field equals the value. -/
def matchesSelector (sel : Selector) (doc : Document) : Bool :=
  decide (Document.get doc sel.1 = some sel.2)

/-- The stored form of a document: it keeps its own `_id` when it has one, and gets the given
one otherwise. -/
def stamp (oid : Value) (doc : Document) : Document :=
  match Document.get doc "_id" with
  | some _ => doc
  | none => ("_id", oid) :: doc

/-- Replace the first document that satisfies the selector by `doc`, which takes over the `_id`
of the one it replaces; `none` when no document satisfies the selector. -/
def replaceFirst (sel : Selector) (doc : Document) : List Document → Option (List Document)
  | [] => none
  | d :: ds =>
    if matchesSelector sel d then
      some (stamp ((Document.get d "_id").getD Value.null) doc :: ds)
    else (replaceFirst sel doc ds).map (fun ds1 => d :: ds1)

/-- Set the documents of one collection of the store. -/
def MgoStore.setColl (st : MgoStore) (db coll : String) (docs : List Document) : MgoStore :=
  { st with colls := fun d c => if d = db ∧ c = coll then docs else st.colls d c }

/-- The upsert of the store: replace the first matching document, else insert the document with
a fresh `_id`. It does not fail. -/
def MgoStore.upsert (db coll : String) (sel : Selector) (doc : Document) (st : MgoStore) :
    MgoStore × Option Error :=
  match replaceFirst sel doc (st.colls db coll) with
  | some docs => (st.setColl db coll docs, none)
  | none =>
    ({ st.setColl db coll (st.colls db coll ++ [stamp (Value.binary 7 [st.nextId]) doc]) with
        nextId := st.nextId + 1 }, none)

/-- The query `Find(selector).One` of the store: the first matching document, else
`mgo.ErrNotFound`. -/
def MgoStore.findOne (db coll : String) (sel : Selector) (st : MgoStore) :
    MgoStore × Except Error Document :=
  match (st.colls db coll).find? (matchesSelector sel) with
  | some doc => (st, Except.ok doc)
  | none => (st, Except.error Error.errNotFound)

/-- The database backend over the store, for a given `uuid.Parse`. -/
def storeEnv (uuidParse : String → List Nat) : MgoEnv MgoStore where
  upsert := MgoStore.upsert
  findOne := MgoStore.findOne
  findAll := fun db coll st => (st, ⟨st.colls db coll, none⟩)
  uuidParse := uuidParse

/-- The store with no document. -/
def MgoStore.empty : MgoStore :=
  ⟨fun _ _ => [], 0⟩

/-! ## Concrete backends used to run the code -/

/-- A search index that answers every request with status 500. -/
def refusingElastic : ElasticEnv Unit where
  newRequestOk := fun _ _ => true
  send := fun _ s => (s, Except.ok ⟨500, ""⟩)
  decodeGetResult := fun _ => Except.error (Error.other "EOF")
  decodeRecentResult := fun _ => Except.error (Error.other "EOF")

/-- A database whose every upsert fails and that holds no document. -/
def refusingMgo : MgoEnv Unit where
  upsert := fun _ _ _ _ s => (s, some (Error.other "no reachable servers"))
  findOne := fun _ _ _ s => (s, Except.error Error.errNotFound)
  findAll := fun _ _ s => (s, ⟨[], none⟩)
  uuidParse := fun _ => []

/-- A search index that holds a document under every id (the document has the requested URL as
its "uuid") and whose search response lists one id per character of the response body. -/
def servingElastic : ElasticEnv Unit where
  newRequestOk := fun _ _ => true
  send := fun req s => (s, Except.ok ⟨200, req.url⟩)
  decodeGetResult := fun body => Except.ok [("uuid", Value.str body)]
  decodeRecentResult := fun body => Except.ok (body.toList.map String.singleton)

/-- The events of a producer loop that hydrates every item and takes the stop case at every
`select`, then returns. -/
def hydrateAndStop {α : Type} (hydrate : α → ProducerEvent) : List α → List ProducerEvent
  | [] => [ProducerEvent.exit]
  | x :: xs => hydrate x :: ProducerEvent.stopBranch :: hydrateAndStop hydrate xs

/-- Whether an event is a hydration call or a document offered to the consumer. -/
def ProducerEvent.produces : ProducerEvent → Bool
  | ProducerEvent.load _ => true
  | ProducerEvent.next _ => true
  | ProducerEvent.offer _ => true
  | _ => false

/-- The cancellation invariant on a trace of producer events: no hydration call and no offer
comes after a step taken on the stop case. -/
def stopIsFinal : List ProducerEvent → Bool
  | [] => true
  | ProducerEvent.stopBranch :: rest => rest.all (fun ev => !ev.produces)
  | _ :: rest => stopIsFinal rest

/-- The `select` choices of a run where the stop case is taken first and a consumer receives
afterwards. -/
def stopThenSend : Nat → SelectCase
  | 0 => SelectCase.stop
  | _ => SelectCase.send

/-- A store whose collection "c" of database "db" holds two documents. -/
def twoDocStore : MgoStore :=
  ⟨fun db coll =>
      if db = "db" ∧ coll = "c" then
        [[("_id", Value.binary 7 [0]), ("uuid", Value.str "a")],
          [("_id", Value.binary 7 [1]), ("uuid", Value.str "b")]]
      else [], 2⟩

/-- The result `(found, doc, err)` of `mongoEngine.Read` issued after `mongoEngine.Write` has
returned. -/
def writeThenRead {σ : Type} (env : MgoEnv σ) (eng : mongoEngine) (collection : Collection)
    (id : String) (doc : Document) (s : σ) : Bool × Document × Option Error :=
  (mongoEngine.Read env eng collection id
    (mongoEngine.Write env eng collection id doc s).1).2.2

/-- The format of the request body of `elasticEngine.All`. -/
def allString : String :=
  "\x7b\"query\":\x7b\"match_all\": \x7b\x7d\x7d, \"fields\":[], \"size\": %d,  \"from\": 0\x7d"

/-- The request body `q` built by `elasticEngine.All` from the count of the collection:
`fmt.Sprintf(allString, ee.Count(collection)+1000)`. -/
def allBody (count : Int) : List Char :=
  sprintfChars allString.toList [FmtArg.int (count + 1000)]

/-- The part of `searchString` before the verb `%v`. -/
def searchHead : List Char :=
  "\n\t\x7b\n\t\t\"query\": \x7b\n\t\t\t\"query_string\": \x7b\n\t\t\t\t\"query\":\"".toList

/-- The part of `searchString` between the verbs `%v` and `%d`. -/
def searchMiddle : List Char :=
  "\"\x7d\n\t\t\t\x7d,\n\t\t\t\"fields\":[],\n\t\t\t\"size\": ".toList

/-- The part of `searchString` after the verb `%d`. -/
def searchTail : List Char :=
  ",\n\t\t\t\"from\": 0\n\t\t\x7d\n\t\x7d".toList

/-- A term without double quote, backslash and control character. -/
def cleanTerm (t : String) : Prop :=
  ∀ c ∈ t.toList, c ≠ '"' ∧ c ≠ '\\' ∧ 32 ≤ c.toNat

/-! ## Theorems -/

theorem getId_of_uuid (doc : Document) (u : String)
    (h : Document.get doc "uuid" = some (Value.str u)) : getId doc = Outcome.returned u := by
  simp [getId, h]

theorem getId_of_id (doc : Document) (i : String) (hu : ¬ holdsString doc "uuid")
    (h : Document.get doc "id" = some (Value.str i)) : getId doc = Outcome.returned i := by
  unfold getId
  split
  · rename_i id hid
    exact absurd ⟨id, hid⟩ hu
  · simp [h]

theorem getId_panics_iff_aux (doc : Document) :
    (∃ msg, getId doc = Outcome.panicked msg) ↔
      (¬ holdsString doc "uuid" ∧ ¬ holdsString doc "id") := by
  unfold getId holdsString
  split
  · rename_i id hid
    simp [hid]
  · rename_i hno
    split
    · rename_i id hid
      simp [hid]
    · rename_i hno2
      simp
      exact ⟨fun s hs => hno s hs, fun s hs => hno2 s hs⟩

theorem getId_returned_holds (doc : Document) (id : String)
    (h : getId doc = Outcome.returned id) : holdsString doc "uuid" ∨ holdsString doc "id" := by
  by_contra hc
  push_neg at hc
  obtain ⟨msg, hm⟩ := (getId_panics_iff_aux doc).2 hc
  rw [h] at hm
  cases hm

theorem putAllLoop_calls {σ : Type} (index : Engine σ) (collection : String)
    (P : WriteCall → Prop)
    (hP : ∀ doc id, getId doc = Outcome.returned id → P ⟨collection, id, doc⟩)
    (body : List (Except Error Document)) :
    ∀ p : Pipeline σ, (∀ c ∈ p.calls, P c) →
      ∀ c ∈ (putAllLoop index collection body p).calls, P c := by
  induction body with
  | nil => intro p hp; simpa [putAllLoop] using hp
  | cons r rest ih =>
    intro p hp
    cases r with
    | error err =>
      simp only [putAllLoop, Pipeline.sendErr]
      split <;> simpa using hp
    | ok doc =>
      simp only [putAllLoop]
      split
      · simpa using hp
      · have hw : ∀ c ∈ (workerIter index collection doc p.backend).2.1, P c := by
          unfold workerIter
          cases hg : getId doc with
          | panicked msg => simp
          | returned id => simpa using hP doc id hg
        split
        · rename_i s calls msg heq
          rw [heq] at hw
          intro c hc
          simp at hc
          rcases hc with hc | hc
          · exact hp c hc
          · exact hw c hc
        · rename_i s calls heq
          rw [heq] at hw
          apply ih
          intro c hc
          simp at hc
          rcases hc with hc | hc
          · exact hp c hc
          · exact hw c hc
        · rename_i s calls err heq
          rw [heq] at hw
          apply ih
          intro c hc
          have : c ∈ p.calls ++ calls := by
            unfold Pipeline.sendErr at hc
            split at hc <;> simpa using hc
          simp at this
          rcases this with hc | hc
          · exact hp c hc
          · exact hw c hc

/-- C1. Identifier precedence of `getId`: a string under "uuid" is returned whatever "id" holds
(the document with "uuid":"a" and "id":"b" yields "a"); when "uuid" holds no string, a string
under "id" is returned. The bulk-ingestion worker calls `Engine.Write` once, with exactly
`getId(doc)` as the id, and so does every `Write` call of the bulk pipeline. -/
theorem C1_getId_precedence :
    (∀ (doc : Document) (u : String),
        Document.get doc "uuid" = some (Value.str u) → getId doc = Outcome.returned u) ∧
    getId [("uuid", Value.str "a"), ("id", Value.str "b")] = Outcome.returned "a" ∧
    (∀ (doc : Document) (i : String), ¬ holdsString doc "uuid" →
        Document.get doc "id" = some (Value.str i) → getId doc = Outcome.returned i) ∧
    (∀ (σ : Type) (index : Engine σ) (collection : String) (doc : Document) (id : String)
        (s : σ), getId doc = Outcome.returned id →
        workerIter index collection doc s =
          ((index.Write collection id doc s).1, [⟨collection, id, doc⟩],
            (index.Write collection id doc s).2)) ∧
    (∀ (σ : Type) (index : Engine σ) (collection : String)
        (body : List (Except Error Document)) (s : σ),
        ∀ c ∈ putAllCalls index collection body s,
          c.collection = collection ∧ getId c.doc = Outcome.returned c.id) := by
  refine ⟨getId_of_uuid, by decide, getId_of_id, ?_, ?_⟩
  · intro σ index collection doc id s h
    simp [workerIter, h]
  · intro σ index collection body s
    exact putAllLoop_calls index collection
      (fun c => c.collection = collection ∧ getId c.doc = Outcome.returned c.id)
      (fun doc id h => ⟨rfl, h⟩) body (Pipeline.start s) (by simp [Pipeline.start])

/-- C1 at concrete inputs: "id" is used when "uuid" holds a number. -/
theorem C1_getId_precedence_witness :
    getId [("uuid", Value.num 7), ("id", Value.str "b")] = Outcome.returned "b" :=
  C1_getId_precedence.2.2.1 [("uuid", Value.num 7), ("id", Value.str "b")] "b"
    (by simp [holdsString, Document.get, List.lookup]) (by decide)

/-- C2. Missing identifier: `getId` panics exactly when neither "uuid" nor "id" holds a string
(absent or non-string); the worker then panics before `Engine.Write` is called, with the backend
untouched, and no `Write` call of the bulk pipeline is for a document without identifier. -/
theorem C2_getId_missing :
    (∀ doc : Document, (∃ msg, getId doc = Outcome.panicked msg) ↔
        (¬ holdsString doc "uuid" ∧ ¬ holdsString doc "id")) ∧
    (∀ (σ : Type) (index : Engine σ) (collection : String) (doc : Document) (s : σ),
        ¬ holdsString doc "uuid" → ¬ holdsString doc "id" →
        ∃ msg, workerIter index collection doc s = (s, [], Outcome.panicked msg)) ∧
    (∀ (σ : Type) (index : Engine σ) (collection : String)
        (body : List (Except Error Document)) (s : σ),
        ∀ c ∈ putAllCalls index collection body s,
          holdsString c.doc "uuid" ∨ holdsString c.doc "id") := by
  refine ⟨getId_panics_iff_aux, ?_, ?_⟩
  · intro σ index collection doc s hu hi
    obtain ⟨msg, hm⟩ := (getId_panics_iff_aux doc).2 ⟨hu, hi⟩
    exact ⟨msg, by simp [workerIter, hm]⟩
  · intro σ index collection body s
    exact putAllLoop_calls index collection
      (fun c => holdsString c.doc "uuid" ∨ holdsString c.doc "id")
      (fun doc id h => getId_returned_holds doc id h) body (Pipeline.start s)
      (by simp [Pipeline.start])

/-- C2 at a concrete input: a worker given a document whose "id" is a number and that has no
"uuid" panics without calling `Write`. -/
theorem C2_getId_missing_witness :
    ∃ msg, workerIter (⟨fun _ _ _ s => (s + 1, Outcome.returned none)⟩ : Engine Nat) "c"
      [("id", Value.num 3)] 0 = (0, [], Outcome.panicked msg) :=
  C2_getId_missing.2.1 Nat ⟨fun _ _ _ s => (s + 1, Outcome.returned none)⟩ "c"
    [("id", Value.num 3)] 0
    (by simp [holdsString, Document.get, List.lookup])
    (by simp [holdsString, Document.get, List.lookup])
/-- C3. Both `elasticEngine.Write` and `mongoEngine.Write`, given an empty id, return the error
"missing id" with the backend state unchanged and no backend call made (no HTTP request, no
upsert); given a non-empty id they return no error at all, so not the empty-id one. -/
theorem C3_write_empty_id :
    (∀ (σ : Type) (env : ElasticEnv σ) (collection : String) (cont : Document) (s : σ),
        elasticEngine.Write env collection "" cont s
          = (s, [], Outcome.returned (some (Error.other "missing id")))) ∧
    (∀ (σ : Type) (env : MgoEnv σ) (eng : mongoEngine) (collection : Collection)
        (cont : Document) (s : σ),
        mongoEngine.Write env eng collection "" cont s
          = (s, [], some (Error.other "missing id"))) ∧
    (∀ (σ : Type) (env : ElasticEnv σ) (collection id : String) (cont : Document) (s : σ),
        id ≠ "" → ∀ err : Error,
          (elasticEngine.Write env collection id cont s).2.2 ≠ Outcome.returned (some err)) ∧
    (∀ (σ : Type) (env : MgoEnv σ) (eng : mongoEngine) (collection : Collection)
        (id : String) (cont : Document) (s : σ),
        id ≠ "" → (mongoEngine.Write env eng collection id cont s).2.2 = none) := by
  refine ⟨?_, ?_, ?_, ?_⟩
  · intro σ env collection cont s
    simp [elasticEngine.Write]
  · intro σ env eng collection cont s
    simp [mongoEngine.Write]
  · intro σ env collection id cont s hid err
    unfold elasticEngine.Write
    rw [if_neg hid]
    split
    · simp
    · simp only
      split <;> simp
  · intro σ env eng collection id cont s hid
    simp [mongoEngine.Write, hid]

/-- C3 at a concrete input: the database `Write` of a document under the id "a" returns no
error. -/
theorem C3_write_empty_id_witness :
    (mongoEngine.Write (storeEnv (fun _ => [])) ⟨"db", false⟩ ⟨"c", "uuid"⟩ "a"
      [("uuid", Value.str "a")] MgoStore.empty).2.2 = none :=
  C3_write_empty_id.2.2.2 MgoStore (storeEnv (fun _ => [])) ⟨"db", false⟩ ⟨"c", "uuid"⟩ "a"
    [("uuid", Value.str "a")] MgoStore.empty (by decide)

/-- C4. `elasticEngine.Load` and `mongoEngine.Read` never yield `found = true` together with a
non-nil error, whatever the backend answers; and a backend that reports the document missing
(status 404 from the search index, `mgo.ErrNotFound` from the database) yields
`found = false` with a nil error. -/
theorem C4_load_found_no_error :
    (∀ (σ : Type) (env : ElasticEnv σ) (collection id : String) (s : σ) (found : Bool)
        (doc : Document) (err : Option Error),
        (elasticEngine.Load env collection id s).2.2 = Outcome.returned (found, doc, err) →
        ¬ (found = true ∧ err ≠ none)) ∧
    (∀ (σ : Type) (env : ElasticEnv σ) (collection id : String) (s s1 : σ) (body : String),
        env.send ⟨"GET", docURL collection id, HttpBody.empty⟩ s = (s1, Except.ok ⟨404, body⟩) →
        (elasticEngine.Load env collection id s).2.2 = Outcome.returned (false, [], none)) ∧
    (∀ (σ : Type) (env : MgoEnv σ) (eng : mongoEngine) (collection : Collection) (id : String)
        (s : σ),
        ¬ ((mongoEngine.Read env eng collection id s).2.2.1 = true ∧
            (mongoEngine.Read env eng collection id s).2.2.2.2 ≠ none)) ∧
    (∀ (σ : Type) (env : MgoEnv σ) (eng : mongoEngine) (collection : Collection) (id : String)
        (s s1 : σ),
        env.findOne eng.dbName collection.name (mongoEngine.readSelector env eng collection id) s
          = (s1, Except.error Error.errNotFound) →
        (mongoEngine.Read env eng collection id s).2.2 = (false, [], none)) := by
  refine ⟨?_, ?_, ?_, ?_⟩
  · intro σ env collection id s found doc err h
    unfold elasticEngine.Load at h
    simp only at h
    split at h
    · simp at h
    · split at h
      · split at h
        · simp at h
        · simp at h
          simp [h.2.2.symm]
      · split at h
        · simp at h
          simp [h.1.symm]
        · simp at h
  · intro σ env collection id s s1 body h
    simp [elasticEngine.Load, h]
  · intro σ env eng collection id s
    unfold mongoEngine.Read
    simp only
    split
    · split <;> simp
    · split <;> simp
  · intro σ env eng collection id s s1 h
    simp [mongoEngine.Read, h]

/-- C4 at a concrete input: reading from the empty store, where the database reports
`mgo.ErrNotFound`, yields `found = false` and no error. -/
theorem C4_load_found_no_error_witness :
    (mongoEngine.Read (storeEnv (fun _ => [])) ⟨"db", false⟩ ⟨"c", "uuid"⟩ "a"
      MgoStore.empty).2.2 = (false, [], none) :=
  C4_load_found_no_error.2.2.2 MgoStore (storeEnv (fun _ => [])) ⟨"db", false⟩ ⟨"c", "uuid"⟩ "a"
    MgoStore.empty MgoStore.empty rfl

/-- Whatever the database answers to the upsert, `mongoEngine.Write` with a non-empty id
returns nil. -/
theorem mongoWrite_returns_nil {σ : Type} (env : MgoEnv σ) (eng : mongoEngine)
    (collection : Collection) (id : String) (cont : Document) (s : σ) (hid : id ≠ "") :
    (mongoEngine.Write env eng collection id cont s).2.2 = none := by
  simp [mongoEngine.Write, hid]

/-- Whatever status the search index answers the PUT with, `elasticEngine.Write` with a
non-empty id returns nil. -/
theorem elasticWrite_returns_nil {σ : Type} (env : ElasticEnv σ) (collection id : String)
    (cont : Document) (s s1 : σ) (res : HttpResponse) (hid : id ≠ "")
    (hreq : env.newRequestOk "PUT" (docURL collection id) = true)
    (hsend : env.send ⟨"PUT", docURL collection id, HttpBody.json cont⟩ s = (s1, Except.ok res)) :
    (elasticEngine.Write env collection id cont s).2.2 = Outcome.returned none := by
  simp [elasticEngine.Write, hid, hreq, hsend]

/-- C8, the code at a failing backend. The database upsert returns the error "no reachable
servers" and `mongoEngine.Write` returns nil; the search index answers the PUT with status 500
and `elasticEngine.Write` returns nil, so `idWriteHandler` and `putAllHandler` answer 200.
For every non-empty id, `mongoEngine.Write` returns nil whatever error the upsert returns, and
`elasticEngine.Write` returns nil whatever the response to the PUT is. -/
theorem C8_backend_failure_returns_nil :
    (refusingMgo.upsert "db" "c" ("uuid", Value.str "a") [("uuid", Value.str "a")] ()).2
        = some (Error.other "no reachable servers") ∧
    (mongoEngine.Write refusingMgo ⟨"db", false⟩ ⟨"c", "uuid"⟩ "a"
        [("uuid", Value.str "a")] ()).2.2 = none ∧
    (refusingElastic.send ⟨"PUT", docURL "c" "a", HttpBody.json [("uuid", Value.str "a")]⟩ ()).2
        = Except.ok ⟨500, ""⟩ ∧
    (elasticEngine.Write refusingElastic "c" "a" [("uuid", Value.str "a")] ()).2.2
        = Outcome.returned none ∧
    (idWriteHandler (elasticIndex refusingElastic) "c" "a"
        (Except.ok [("uuid", Value.str "a")]) ((), [])).2.2 = HandlerResult.status 200 "" ∧
    putAllHandler (elasticIndex refusingElastic) "c"
        [Except.ok [("uuid", Value.str "a")]] ((), []) = HandlerResult.status 200 "" ∧
    (∀ (σ : Type) (env : MgoEnv σ) (eng : mongoEngine) (collection : Collection) (id : String)
        (cont : Document) (s : σ) (err : Error), id ≠ "" →
        (env.upsert eng.dbName collection.name (collection.idPropertyName, Value.str id)
          cont s).2 = some err →
        (mongoEngine.Write env eng collection id cont s).2.2 = none) ∧
    (∀ (σ : Type) (env : ElasticEnv σ) (collection id : String) (cont : Document) (s s1 : σ)
        (res : HttpResponse), id ≠ "" →
        env.newRequestOk "PUT" (docURL collection id) = true →
        env.send ⟨"PUT", docURL collection id, HttpBody.json cont⟩ s = (s1, Except.ok res) →
        (elasticEngine.Write env collection id cont s).2.2 = Outcome.returned none) := by
  refine ⟨rfl, rfl, rfl, rfl, by decide, by decide, ?_, ?_⟩
  · intro σ env eng collection id cont s err hid _
    exact mongoWrite_returns_nil env eng collection id cont s hid
  · intro σ env collection id cont s s1 res hid hreq hsend
    exact elasticWrite_returns_nil env collection id cont s s1 res hid hreq hsend

/-- C8 at a concrete input: the search index answers the PUT of a document with status 500 and
`elasticEngine.Write` returns nil. -/
theorem C8_backend_failure_returns_nil_witness :
    (elasticEngine.Write refusingElastic "c" "a" [("uuid", Value.str "a")] ()).2.2
      = Outcome.returned none :=
  C8_backend_failure_returns_nil.2.2.2.2.2.2.2 Unit refusingElastic "c" "a"
    [("uuid", Value.str "a")] () () ⟨500, ""⟩ (by decide) rfl rfl

/-- The handler `putAllHandler` answers with status 500 or 200 only, when it answers. -/
theorem putAllHandler_status {σ : Type} (index : Engine σ) (collection : String)
    (body : List (Except Error Document)) (s : σ) (code : Nat) (text : String)
    (h : putAllHandler index collection body s = HandlerResult.status code text) :
    code = 500 ∨ code = 200 := by
  unfold putAllHandler Pipeline.answer at h
  split at h
  · cases h
  · split at h
    · cases h
    · split at h
      · injection h with h1 h2
        exact Or.inl h1.symm
      · injection h with h1 h2
        exact Or.inr h1.symm

/-- C9, the code on a malformed body. `idWriteHandler` answers 400 when the decoding of the body
fails; `putAllHandler`, whose decoder fails on the first value of the body, answers 500, and it
answers 400 on no body at all. -/
theorem C9_malformed_body_status :
    (∀ (σ : Type) (index : Engine σ) (collection id : String) (err : Error) (s : σ),
        (idWriteHandler index collection id (Except.error err) s).2.2
          = HandlerResult.status 400 (Error.message err)) ∧
    (∀ (σ : Type) (index : Engine σ) (collection : String) (err : Error)
        (rest : List (Except Error Document)) (s : σ),
        putAllHandler index collection (Except.error err :: rest) s
          = HandlerResult.status 500 (Error.message err)) ∧
    (∀ (σ : Type) (index : Engine σ) (collection : String)
        (body : List (Except Error Document)) (s : σ) (text : String),
        putAllHandler index collection body s ≠ HandlerResult.status 400 text) := by
  refine ⟨?_, ?_, ?_⟩
  · intro σ index collection id err s
    simp [idWriteHandler]
  · intro σ index collection err rest s
    simp [putAllHandler, putAllLoop, Pipeline.start, Pipeline.sendErr, Pipeline.answer,
      errChCapacity]
  · intro σ index collection body s text h
    have := putAllHandler_status index collection body s 400 text h
    omega

/-- C7, the code on three failing writes. The error channel holds 2 errors, fewer than the 9
tasks that may send on it. On a body of three documents whose "uuid" is the empty string, each
`Write` of the search-index engine fails with "missing id" in a worker of its own; the third
worker blocks on its send for good, so the wait for all tasks never completes and the handler
does not answer. -/
theorem C7_errCh_capacity_too_small :
    errChCapacity = 2 ∧ failureSources = 9 ∧ errChCapacity < failureSources ∧
    (∀ (σ : Type) (env : ElasticEnv σ) (collection : String) (s : σ × List HttpRequest),
        (putAllLoop (elasticIndex env) collection
          [Except.ok [("uuid", Value.str "")], Except.ok [("uuid", Value.str "")],
            Except.ok [("uuid", Value.str "")]] (Pipeline.start s)).blocked = 1 ∧
        putAllHandler (elasticIndex env) collection
          [Except.ok [("uuid", Value.str "")], Except.ok [("uuid", Value.str "")],
            Except.ok [("uuid", Value.str "")]] s = HandlerResult.hang) := by
  refine ⟨rfl, rfl, by decide, ?_⟩
  intro σ env collection s
  have hw : ∀ t : σ × List HttpRequest,
      workerIter (elasticIndex env) collection [("uuid", Value.str "")] t
        = (t, [⟨collection, "", [("uuid", Value.str "")]⟩],
            Outcome.returned (some (Error.other "missing id"))) := by
    intro t
    simp [workerIter, getId, Document.get, List.lookup, elasticIndex, elasticEngine.Write]
  constructor
  · simp [putAllLoop, hw, Pipeline.start, Pipeline.sendErr, errChCapacity, numWorkers]
  · simp [putAllHandler, putAllLoop, hw, Pipeline.start, Pipeline.sendErr, Pipeline.answer,
      errChCapacity, numWorkers]

/-- With the stop case taken at every `select`, the goroutine of `mongoEngine.All` still
advances the cursor over every remaining document before it returns. -/
theorem allTrace_all_stop {σ : Type} (env : MgoEnv σ) (eng : mongoEngine)
    (collection : Collection) (docs : List Document) :
    ∀ (s : σ) (k : Nat),
      mongoEngine.allTrace env eng collection (fun _ => SelectCase.stop) (2 * docs.length + 2)
          ⟨AllPc.looping ⟨docs, none⟩, s, k⟩
        = hydrateAndStop ProducerEvent.next docs := by
  induction docs with
  | nil =>
    intro s k
    simp [mongoEngine.allTrace, mongoEngine.allStep, hydrateAndStop]
  | cons d ds ih =>
    intro s k
    have hlen : 2 * (d :: ds).length + 2 = (2 * ds.length + 2) + 1 + 1 := by
      simp only [List.length_cons]; omega
    rw [hlen]
    show ProducerEvent.next d :: ProducerEvent.stopBranch ::
        mongoEngine.allTrace env eng collection (fun _ => SelectCase.stop) (2 * ds.length + 2)
          ⟨AllPc.looping ⟨ds, none⟩, s, k + 1⟩ = _
    rw [ih]
    rfl

/-- With the stop case taken at every `select`, the goroutine of `elasticEngine.query` still
loads every remaining hit from a search index that holds them, before it returns. -/
theorem queryTrace_all_stop (collection : String) (hits : List String) :
    ∀ (sent : List HttpRequest) (k : Nat),
      elasticEngine.queryTrace servingElastic collection (fun _ => SelectCase.stop)
          (2 * hits.length + 2) ⟨QueryPc.looping hits, (), sent, k⟩
        = hydrateAndStop ProducerEvent.load hits := by
  induction hits with
  | nil =>
    intro sent k
    simp [elasticEngine.queryTrace, elasticEngine.queryStep, hydrateAndStop]
  | cons id ids ih =>
    intro sent k
    have hlen : 2 * (id :: ids).length + 2 = (2 * ids.length + 2) + 1 + 1 := by
      simp only [List.length_cons]; omega
    rw [hlen]
    show ProducerEvent.load id :: ProducerEvent.stopBranch ::
        elasticEngine.queryTrace servingElastic collection (fun _ => SelectCase.stop)
          (2 * ids.length + 2)
          ⟨QueryPc.looping ids, (), sent ++ [⟨"GET", docURL collection id, HttpBody.empty⟩],
            k + 1⟩ = _
    rw [ih]
    rfl

/-- C6, the code after the stop case. In `elasticEngine.query` and in `mongoEngine.All` the stop
case of the `select` is a `break` that leaves the `select` only. With two hits and the stop case
taken at the first `select`, the producer goes on to load the second hit, and offers it when a
consumer receives; with the stop case taken at every `select`, every remaining hit (every
remaining document of the cursor) is still hydrated before the goroutine returns. -/
theorem C6_stop_case_stays_in_loop :
    elasticEngine.queryTrace servingElastic "c" (fun _ => SelectCase.stop) 20
        ⟨QueryPc.decoding "ab", (), [], 0⟩
      = [ProducerEvent.started, ProducerEvent.load "a", ProducerEvent.stopBranch,
          ProducerEvent.load "b", ProducerEvent.stopBranch, ProducerEvent.exit] ∧
    elasticEngine.queryTrace servingElastic "c" stopThenSend 20
        ⟨QueryPc.decoding "ab", (), [], 0⟩
      = [ProducerEvent.started, ProducerEvent.load "a", ProducerEvent.stopBranch,
          ProducerEvent.load "b",
          ProducerEvent.offer [("uuid", Value.str "http://localhost:9200/store/c/b")],
          ProducerEvent.exit] ∧
    stopIsFinal (elasticEngine.queryTrace servingElastic "c" (fun _ => SelectCase.stop) 20
        ⟨QueryPc.decoding "ab", (), [], 0⟩) = false ∧
    mongoEngine.allTrace (storeEnv (fun _ => [])) ⟨"db", false⟩ ⟨"c", "uuid"⟩ stopThenSend 20
        (mongoEngine.All twoDocStore)
      = [ProducerEvent.started,
          ProducerEvent.next [("_id", Value.binary 7 [0]), ("uuid", Value.str "a")],
          ProducerEvent.stopBranch,
          ProducerEvent.next [("_id", Value.binary 7 [1]), ("uuid", Value.str "b")],
          ProducerEvent.offer [("uuid", Value.str "b")], ProducerEvent.exit] ∧
    stopIsFinal (mongoEngine.allTrace (storeEnv (fun _ => [])) ⟨"db", false⟩ ⟨"c", "uuid"⟩
        (fun _ => SelectCase.stop) 20 (mongoEngine.All twoDocStore)) = false ∧
    (∀ (collection : String) (hits : List String) (sent : List HttpRequest) (k : Nat),
        elasticEngine.queryTrace servingElastic collection (fun _ => SelectCase.stop)
            (2 * hits.length + 2) ⟨QueryPc.looping hits, (), sent, k⟩
          = hydrateAndStop ProducerEvent.load hits) ∧
    (∀ (σ : Type) (env : MgoEnv σ) (eng : mongoEngine) (collection : Collection)
        (docs : List Document) (s : σ) (k : Nat),
        mongoEngine.allTrace env eng collection (fun _ => SelectCase.stop)
            (2 * docs.length + 2) ⟨AllPc.looping ⟨docs, none⟩, s, k⟩
          = hydrateAndStop ProducerEvent.next docs) := by
  refine ⟨by decide, by decide, by decide, by decide, by decide, ?_, ?_⟩
  · intro collection hits sent k
    exact queryTrace_all_stop collection hits sent k
  · intro σ env eng collection docs s k
    exact allTrace_all_stop env eng collection docs s k

theorem get_delete_ne (doc : Document) (key k : String) (h : k ≠ key) :
    Document.get (Document.delete doc key) k = Document.get doc k := by
  induction doc with
  | nil => rfl
  | cons kv rest ih =>
    obtain ⟨k1, v1⟩ := kv
    unfold Document.delete Document.get at *
    by_cases hk : k1 = key
    · subst hk
      have hne : (k == k1) = false := by simpa using h
      simp [List.filter, List.lookup, hne, ih]
    · have hk2 : (k1 != key) = true := by simpa using hk
      simp only [List.filter, hk2, List.lookup]
      cases hkk : (k == k1) with
      | true => rfl
      | false => simpa using ih

theorem get_stamp_ne (oid : Value) (doc : Document) (k : String) (h : k ≠ "_id") :
    Document.get (stamp oid doc) k = Document.get doc k := by
  unfold stamp
  split
  · rfl
  · have hne : (k == "_id") = false := by simpa using h
    simp [Document.get, List.lookup, hne]

theorem get_stamp_of_some (oid : Value) (doc : Document) (k : String) (v : Value)
    (h : Document.get doc k = some v) : Document.get (stamp oid doc) k = some v := by
  by_cases hk : k = "_id"
  · subst hk
    simp [stamp, h]
  · rw [get_stamp_ne oid doc k hk, h]

theorem matches_stamp (sel : Selector) (oid : Value) (doc : Document)
    (h : Document.get doc sel.1 = some sel.2) : matchesSelector sel (stamp oid doc) = true := by
  simp [matchesSelector, get_stamp_of_some oid doc sel.1 sel.2 h]

theorem find_replaceFirst (sel : Selector) (doc : Document)
    (h : Document.get doc sel.1 = some sel.2) (docs : List Document) :
    ∀ docs1, replaceFirst sel doc docs = some docs1 →
      ∃ oid, docs1.find? (matchesSelector sel) = some (stamp oid doc) := by
  induction docs with
  | nil => intro docs1 h1; simp [replaceFirst] at h1
  | cons d ds ih =>
    intro docs1 h1
    unfold replaceFirst at h1
    by_cases hm : matchesSelector sel d = true
    · rw [if_pos hm] at h1
      injection h1 with h1
      subst h1
      exact ⟨(Document.get d "_id").getD Value.null,
        by simp [List.find?, matches_stamp sel _ doc h]⟩
    · rw [if_neg hm] at h1
      cases hr : replaceFirst sel doc ds with
      | none => simp [hr] at h1
      | some ds1 =>
        simp [hr] at h1
        subst h1
        obtain ⟨oid, ho⟩ := ih ds1 hr
        refine ⟨oid, ?_⟩
        have hm2 : matchesSelector sel d = false := by simpa using hm
        simp [List.find?, hm2, ho]

theorem find_of_replaceFirst_none (sel : Selector) (doc : Document) (docs : List Document) :
    replaceFirst sel doc docs = none → docs.find? (matchesSelector sel) = none := by
  induction docs with
  | nil => intro _; rfl
  | cons d ds ih =>
    intro h1
    unfold replaceFirst at h1
    by_cases hm : matchesSelector sel d = true
    · simp [hm] at h1
    · rw [if_neg hm] at h1
      have hm2 : matchesSelector sel d = false := by simpa using hm
      cases hr : replaceFirst sel doc ds with
      | none => simp [List.find?, hm2, ih hr]
      | some ds1 => simp [hr] at h1

/-- After the upsert of a document that carries the selected value, the first document of the
collection that satisfies the selector is that document, stamped with an `_id`. -/
theorem findOne_after_upsert (db coll : String) (sel : Selector) (doc : Document)
    (st : MgoStore) (h : Document.get doc sel.1 = some sel.2) :
    ∃ oid, (MgoStore.findOne db coll sel (MgoStore.upsert db coll sel doc st).1).2
      = Except.ok (stamp oid doc) := by
  unfold MgoStore.upsert
  cases hr : replaceFirst sel doc (st.colls db coll) with
  | some docs1 =>
    obtain ⟨oid, ho⟩ := find_replaceFirst sel doc h _ docs1 hr
    refine ⟨oid, ?_⟩
    simp [MgoStore.findOne, MgoStore.setColl, ho]
  | none =>
    refine ⟨Value.binary 7 [st.nextId], ?_⟩
    have hn := find_of_replaceFirst_none sel doc _ hr
    simp [MgoStore.findOne, MgoStore.setColl, List.find?_append, hn,
      matches_stamp sel _ doc h]

/-- Write/Read round trip of the database engine with string identifiers
(`isBinaryId = false`), over the store: the document written under its identifier is read back
equal on every field except "_id". -/
theorem mongo_round_trip_string_ids (uuidParse : String → List Nat) (db : String)
    (collection : Collection) (id : String) (doc : Document) (st : MgoStore) (hid : id ≠ "")
    (hdoc : Document.get doc collection.idPropertyName = some (Value.str id)) :
    ∃ doc1, writeThenRead (storeEnv uuidParse) ⟨db, false⟩ collection id doc st
        = (true, doc1, none) ∧
      ∀ k, k ≠ "_id" → Document.get doc1 k = Document.get doc k := by
  obtain ⟨oid, ho⟩ := findOne_after_upsert db collection.name
    (collection.idPropertyName, Value.str id) doc st hdoc
  refine ⟨cleanup (stamp oid doc), ?_, ?_⟩
  · unfold writeThenRead mongoEngine.Read mongoEngine.Write
    simp only [if_neg hid, mongoEngine.readSelector, storeEnv]
    generalize hres : MgoStore.findOne db collection.name
      (collection.idPropertyName, Value.str id)
      (MgoStore.upsert db collection.name (collection.idPropertyName, Value.str id) doc st).1
        = res at ho
    obtain ⟨s1, r⟩ := res
    simp only at ho
    subst ho
    simp [hres]
  · intro k hk
    unfold cleanup
    rw [get_delete_ne _ _ _ hk, get_stamp_ne _ _ _ hk]

theorem mem_replaceFirst (sel : Selector) (doc : Document) (docs : List Document) :
    ∀ docs1, replaceFirst sel doc docs = some docs1 →
      ∀ d ∈ docs1, d ∈ docs ∨ ∃ oid, d = stamp oid doc := by
  induction docs with
  | nil => intro docs1 h1; simp [replaceFirst] at h1
  | cons d0 ds ih =>
    intro docs1 h1 d hd
    unfold replaceFirst at h1
    by_cases hm : matchesSelector sel d0 = true
    · rw [if_pos hm] at h1
      injection h1 with h1
      subst h1
      rcases List.mem_cons.mp hd with h | h
      · exact Or.inr ⟨_, h⟩
      · exact Or.inl (List.mem_cons_of_mem _ h)
    · rw [if_neg hm] at h1
      cases hr : replaceFirst sel doc ds with
      | none => simp [hr] at h1
      | some ds1 =>
        simp [hr] at h1
        subst h1
        rcases List.mem_cons.mp hd with h | h
        · exact Or.inl (h ▸ List.mem_cons_self _ _)
        · rcases ih ds1 hr d h with h2 | h2
          · exact Or.inl (List.mem_cons_of_mem _ h2)
          · exact Or.inr h2

/-- In binary identifier mode, on a store none of whose documents holds the identifier as a
`bson.Binary`, the document `mongoEngine.Write` has just stored under its string identifier is
reported missing by `mongoEngine.Read`. -/
theorem binary_read_after_write_missing (uuidParse : String → List Nat) (db : String)
    (collection : Collection) (id : String) (doc : Document) (st : MgoStore) (hid : id ≠ "")
    (hdoc : Document.get doc collection.idPropertyName = some (Value.str id))
    (hst : ∀ d ∈ st.colls db collection.name,
      matchesSelector (collection.idPropertyName, Value.binary 4 (uuidParse id)) d = false) :
    writeThenRead (storeEnv uuidParse) ⟨db, true⟩ collection id doc st = (false, [], none) := by
  have hstamp : ∀ oid, matchesSelector
      (collection.idPropertyName, Value.binary 4 (uuidParse id)) (stamp oid doc) = false := by
    intro oid
    simp [matchesSelector, get_stamp_of_some oid doc _ _ hdoc]
  have hfind : ((MgoStore.upsert db collection.name (collection.idPropertyName, Value.str id)
      doc st).1.colls db collection.name).find?
        (matchesSelector (collection.idPropertyName, Value.binary 4 (uuidParse id))) = none := by
    rw [List.find?_eq_none]
    intro d hd
    have hd2 : d ∈ st.colls db collection.name ∨ ∃ oid, d = stamp oid doc := by
      unfold MgoStore.upsert at hd
      cases hr : replaceFirst (collection.idPropertyName, Value.str id) doc
          (st.colls db collection.name) with
      | some docs1 =>
        rw [hr] at hd
        simp [MgoStore.setColl] at hd
        exact mem_replaceFirst _ doc _ docs1 hr d hd
      | none =>
        rw [hr] at hd
        simp [MgoStore.setColl] at hd
        rcases hd with h | h
        · exact Or.inl h
        · exact Or.inr ⟨_, h⟩
    rcases hd2 with h | ⟨oid, h⟩
    · simp [hst d h]
    · simp [h, hstamp oid]
  unfold writeThenRead mongoEngine.Read mongoEngine.Write
  simp only [if_neg hid, mongoEngine.readSelector, storeEnv, MgoStore.findOne]
  simp [hfind]

/-- C5, the code in binary identifier mode. `mongoEngine.Write` upserts under the identifier as
a string in both modes, while `mongoEngine.Read` with `isBinaryId` queries for the identifier as
a `bson.Binary`: on the empty store, the document written under
"6ba7b810-9dad-11d1-80b4-00c04fd430c8" is stored, and reading it back reports it missing,
`(false, Document{}, nil)`, whatever `uuid.Parse` yields; so it is on every store that holds no
binary identifier, for every document. With `isBinaryId = false` the document written under
its identifier is read back equal on every field except "_id". -/
theorem C5_binary_id_round_trip_fails :
    (∀ uuidParse : String → List Nat,
      writeThenRead (storeEnv uuidParse) ⟨"db", true⟩ ⟨"c", "uuid"⟩
          "6ba7b810-9dad-11d1-80b4-00c04fd430c8"
          [("uuid", Value.str "6ba7b810-9dad-11d1-80b4-00c04fd430c8")] MgoStore.empty
        = (false, [], none)) ∧
    (∀ uuidParse : String → List Nat,
      ((mongoEngine.Write (storeEnv uuidParse) ⟨"db", true⟩ ⟨"c", "uuid"⟩
          "6ba7b810-9dad-11d1-80b4-00c04fd430c8"
          [("uuid", Value.str "6ba7b810-9dad-11d1-80b4-00c04fd430c8")] MgoStore.empty).1.colls
            "db" "c")
        = [[("_id", Value.binary 7 [0]),
            ("uuid", Value.str "6ba7b810-9dad-11d1-80b4-00c04fd430c8")]]) ∧
    (∀ (uuidParse : String → List Nat) (db : String) (collection : Collection) (id : String)
        (doc : Document) (st : MgoStore), id ≠ "" →
        Document.get doc collection.idPropertyName = some (Value.str id) →
        (∀ d ∈ st.colls db collection.name,
          matchesSelector (collection.idPropertyName, Value.binary 4 (uuidParse id)) d
            = false) →
        writeThenRead (storeEnv uuidParse) ⟨db, true⟩ collection id doc st
          = (false, [], none)) ∧
    (∀ (uuidParse : String → List Nat) (db : String) (collection : Collection) (id : String)
        (doc : Document) (st : MgoStore), id ≠ "" →
        Document.get doc collection.idPropertyName = some (Value.str id) →
        ∃ doc1, writeThenRead (storeEnv uuidParse) ⟨db, false⟩ collection id doc st
            = (true, doc1, none) ∧
          ∀ k, k ≠ "_id" → Document.get doc1 k = Document.get doc k) := by
  refine ⟨fun _ => rfl, fun _ => rfl, ?_, ?_⟩
  · intro uuidParse db collection id doc st hid hdoc hst
    exact binary_read_after_write_missing uuidParse db collection id doc st hid hdoc hst
  · intro uuidParse db collection id doc st hid hdoc
    exact mongo_round_trip_string_ids uuidParse db collection id doc st hid hdoc

/-- C5 at a concrete input: in binary identifier mode, on a store of two documents with string
identifiers, the document written under "b" is reported missing when read back. -/
theorem C5_binary_id_round_trip_fails_witness :
    writeThenRead (storeEnv (fun _ => [])) ⟨"db", true⟩ ⟨"c", "uuid"⟩ "b"
      [("uuid", Value.str "b"), ("n", Value.num 1)] twoDocStore = (false, [], none) :=
  C5_binary_id_round_trip_fails.2.2.1 (fun _ => []) "db" ⟨"c", "uuid"⟩ "b"
    [("uuid", Value.str "b"), ("n", Value.num 1)] twoDocStore (by decide) (by decide)
    (by decide)

theorem searchString_split :
    searchString.toList = searchHead ++ '%' :: 'v' :: (searchMiddle ++ '%' :: 'd' :: searchTail) := by
  decide

theorem sprintfChars_nil (args : List FmtArg) : sprintfChars [] args = [] := by
  unfold sprintfChars
  rfl

theorem sprintfChars_copy (pre : List Char) (hpre : ∀ c ∈ pre, c ≠ '%') :
    ∀ (rest : List Char) (args : List FmtArg),
      sprintfChars (pre ++ rest) args = pre ++ sprintfChars rest args := by
  induction pre with
  | nil => intro rest args; rfl
  | cons c cs ih =>
    intro rest args
    have hc : c ≠ '%' := hpre c (List.mem_cons_self _ _)
    have ih1 := ih (fun x hx => hpre x (List.mem_cons_of_mem _ hx)) rest args
    cases hcs : cs ++ rest with
    | nil =>
      have h1 : cs = [] := (List.append_eq_nil.mp hcs).1
      have h2 : rest = [] := (List.append_eq_nil.mp hcs).2
      subst h1; subst h2
      simp [sprintfChars, sprintfChars_nil]
    | cons d r =>
      rw [hcs] at ih1
      rw [List.cons_append, hcs]
      simp only [sprintfChars, hc, false_and, if_false]
      rw [ih1]
      rfl

theorem sprintfChars_verb_v (a : FmtArg) (rest : List Char) (args : List FmtArg) :
    sprintfChars ('%' :: 'v' :: rest) (a :: args) = a.chars ++ sprintfChars rest args := by
  simp [sprintfChars]

theorem sprintfChars_verb_d (a : FmtArg) (rest : List Char) (args : List FmtArg) :
    sprintfChars ('%' :: 'd' :: rest) (a :: args) = a.chars ++ sprintfChars rest args := by
  simp [sprintfChars]

/-- The body of a search request is the template with the joined terms in place of `%v` and
the decimal limit in place of `%d`. -/
theorem searchBody_eq (terms : List String) (limit : Int) :
    searchBody terms limit
      = searchHead ++ ((joinTerms terms).toList ++ (searchMiddle ++ (formatInt limit ++ searchTail))) := by
  unfold searchBody
  rw [searchString_split, sprintfChars_copy searchHead (by decide), sprintfChars_verb_v,
    sprintfChars_copy searchMiddle (by decide), sprintfChars_verb_d]
  have htail : sprintfChars searchTail [] = searchTail := by
    have := sprintfChars_copy searchTail (by decide) [] []
    simpa [sprintfChars_nil] using this
  rw [htail]
  rfl

theorem scanObject_inString_skip (cs : List Char) (hcs : ∀ c ∈ cs, c ≠ '"' ∧ c ≠ '\\') :
    ∀ (depth : Nat) (rest : List Char),
      scanObject depth ScanMode.inString (cs ++ rest)
        = scanObject depth ScanMode.inString rest := by
  induction cs with
  | nil => intro depth rest; rfl
  | cons c cs ih =>
    intro depth rest
    have hc := hcs c (List.mem_cons_self _ _)
    rw [List.cons_append]
    simp only [scanObject, hc.1, hc.2, if_false]
    exact ih (fun x hx => hcs x (List.mem_cons_of_mem _ hx)) depth rest

theorem scanObject_code_skip (cs : List Char)
    (hcs : ∀ c ∈ cs, c ≠ '"' ∧ c ≠ '\x7b' ∧ c ≠ '\x7d') :
    ∀ (depth : Nat) (rest : List Char),
      scanObject depth ScanMode.code (cs ++ rest) = scanObject depth ScanMode.code rest := by
  induction cs with
  | nil => intro depth rest; rfl
  | cons c cs ih =>
    intro depth rest
    have hc := hcs c (List.mem_cons_self _ _)
    rw [List.cons_append]
    simp only [scanObject, hc.1, hc.2.1, hc.2.2, if_false]
    exact ih (fun x hx => hcs x (List.mem_cons_of_mem _ hx)) depth rest

theorem digitChar_plain :
    ∀ k, k < 10 →
      (Nat.digitChar k ≠ '"' ∧ Nat.digitChar k ≠ '\x7b' ∧ Nat.digitChar k ≠ '\x7d') := by
  decide

theorem toDigitsCore_plain (fuel : Nat) :
    ∀ (n : Nat) (ds : List Char), (∀ c ∈ ds, c ≠ '"' ∧ c ≠ '\x7b' ∧ c ≠ '\x7d') →
      ∀ c ∈ Nat.toDigitsCore 10 fuel n ds, c ≠ '"' ∧ c ≠ '\x7b' ∧ c ≠ '\x7d' := by
  induction fuel with
  | zero => intro n ds hds; simpa [Nat.toDigitsCore] using hds
  | succ fuel ih =>
    intro n ds hds
    have hcons : ∀ c ∈ Nat.digitChar (n % 10) :: ds, c ≠ '"' ∧ c ≠ '\x7b' ∧ c ≠ '\x7d' := by
      intro c hc
      rcases List.mem_cons.mp hc with h | h
      · rw [h]; exact digitChar_plain _ (Nat.mod_lt _ (by decide))
      · exact hds c h
    unfold Nat.toDigitsCore
    simp only
    split
    · exact hcons
    · exact ih _ _ hcons

theorem formatInt_plain (n : Int) :
    ∀ c ∈ formatInt n, c ≠ '"' ∧ c ≠ '\x7b' ∧ c ≠ '\x7d' := by
  cases n with
  | ofNat m =>
    exact toDigitsCore_plain _ _ _ (by simp)
  | negSucc m =>
    intro c hc
    unfold formatInt at hc
    rcases List.mem_cons.mp hc with h | h
    · rw [h]; decide
    · exact toDigitsCore_plain _ _ _ (by simp) c h

theorem intercalate_go_chars (sep : String) (rest : List String) :
    ∀ (acc : String) (c : Char), c ∈ (String.intercalate.go acc sep rest).toList →
      c ∈ acc.toList ∨ c ∈ sep.toList ∨ ∃ t ∈ rest, c ∈ t.toList := by
  induction rest with
  | nil =>
    intro acc c hc
    simp [String.intercalate.go] at hc
    exact Or.inl hc
  | cons a rest ih =>
    intro acc c hc
    simp only [String.intercalate.go] at hc
    rcases ih _ c hc with h | h | ⟨t, ht, hct⟩
    · simp only [String.toList, String.data_append, List.mem_append] at h
      rcases h with (h | h) | h
      · exact Or.inl h
      · exact Or.inr (Or.inl h)
      · exact Or.inr (Or.inr ⟨a, List.mem_cons_self _ _, h⟩)
    · exact Or.inr (Or.inl h)
    · exact Or.inr (Or.inr ⟨t, List.mem_cons_of_mem _ ht, hct⟩)

theorem joinTerms_chars (terms : List String) (c : Char) (hc : c ∈ (joinTerms terms).toList) :
    c = ' ' ∨ ∃ t ∈ terms, c ∈ t.toList := by
  unfold joinTerms String.intercalate at hc
  cases terms with
  | nil => simp at hc
  | cons a rest =>
    simp only at hc
    rcases intercalate_go_chars " " rest a c hc with h | h | ⟨t, ht, hct⟩
    · exact Or.inr ⟨a, List.mem_cons_self _ _, h⟩
    · left
      simpa using h
    · exact Or.inr ⟨t, List.mem_cons_of_mem _ ht, hct⟩

theorem afterObject_head (rest : List Char) :
    afterObject (searchHead ++ rest) = scanObject 3 ScanMode.inString rest := by
  rfl

theorem scanObject_middle (rest : List Char) :
    scanObject 3 ScanMode.inString (searchMiddle ++ rest) = scanObject 1 ScanMode.code rest := by
  rfl

theorem scanObject_tail : scanObject 1 ScanMode.code searchTail = some ['\n', '\t', '\x7d'] := by
  decide

/-- For clean terms and any limit, the brace that closes the object of the search body is
followed by a line break, a tab and one more closing brace. -/
theorem afterObject_searchBody (terms : List String) (limit : Int)
    (hterms : ∀ t ∈ terms, cleanTerm t) :
    afterObject (searchBody terms limit) = some ['\n', '\t', '\x7d'] := by
  rw [searchBody_eq, afterObject_head, scanObject_inString_skip, scanObject_middle,
    scanObject_code_skip _ (formatInt_plain limit), scanObject_tail]
  intro c hc
  rcases joinTerms_chars terms c hc with h | ⟨t, ht, hct⟩
  · rw [h]; decide
  · exact ⟨(hterms t ht c hct).1, (hterms t ht c hct).2.1⟩

/-- C10, the request body of `elasticEngine.Search`. For the terms "a", "b" and the limit 20 the
body carries the terms joined by a space as the query and 20 as the size, but the template
`searchString` closes one brace more than it opens: the object is closed by the brace before
the last one, and a closing brace follows it, so the body is not one well-formed JSON object
(the body of `elasticEngine.All` is one). For all terms and every limit the body is the
template with the joined terms and the decimal limit filled in, and for all terms without
double quote, backslash and control character it is not one well-formed JSON object. -/
theorem C10_search_body_unbalanced :
    searchBody ["a", "b"] 20
      = "\n\t\x7b\n\t\t\"query\": \x7b\n\t\t\t\"query_string\": \x7b\n\t\t\t\t\"query\":\"a b\"\x7d\n\t\t\t\x7d,\n\t\t\t\"fields\":[],\n\t\t\t\"size\": 20,\n\t\t\t\"from\": 0\n\t\t\x7d\n\t\x7d".toList ∧
    afterObject (searchBody ["a", "b"] 20) = some ['\n', '\t', '\x7d'] ∧
    isOneObject (searchBody ["a", "b"] 20) = false ∧
    isOneObject (allBody 3) = true ∧
    (∀ (terms : List String) (limit : Int),
        searchBody terms limit
          = searchHead ++ ((joinTerms terms).toList
              ++ (searchMiddle ++ (formatInt limit ++ searchTail)))) ∧
    (∀ (terms : List String) (limit : Int), (∀ t ∈ terms, cleanTerm t) →
        afterObject (searchBody terms limit) = some ['\n', '\t', '\x7d'] ∧
        isOneObject (searchBody terms limit) = false) := by
  refine ⟨by decide, by decide, by decide, by decide, searchBody_eq, ?_⟩
  intro terms limit hterms
  have h := afterObject_searchBody terms limit hterms
  refine ⟨h, ?_⟩
  unfold isOneObject
  rw [h]
  decide

/-- C10 at a concrete input: the body built for the term "news" and the limit 20 is not one
well-formed JSON object. -/
theorem C10_search_body_unbalanced_witness :
    isOneObject (searchBody ["news"] 20) = false :=
  (C10_search_body_unbalanced.2.2.2.2.2 ["news"] 20 (by
    intro t ht
    rw [List.mem_singleton.mp ht]
    unfold cleanTerm
    decide)).2

end Restorage
